import Mathlib

/-!
Verification model of the katana in-memory storage provider
(`crates/katana/storage/provider/src/providers/in_memory/mod.rs`).

The provider keeps three components:
  * a `CacheDb` holding the block / transaction / receipt indices
    (the `storage` field, behind a `RwLock` in the source);
  * an `InMemoryStateDb` holding the current world state (the `state` field);
  * a `HistoricalStates` registry mapping block numbers to immutable
    point-in-time state snapshots (the `historical_states` field).

The submodules `cache.rs` and `state.rs` are not part of the sources under
verification; the structures they declare (`CacheDb`, `InMemoryStateDb`,
`HistoricalStates`) are modelled from the specification, as noted on each
definition.  Everything in `mod.rs` itself is translated directly.

Hashes, addresses, field elements, transaction payloads, receipts and
finality statuses are abstracted as natural numbers; none of the verified
properties depends on their internal structure.
-/

namespace KatanaInMemory

/-- Finite map keyed by naturals (the model of the `HashMap`s of the source). -/
abbrev Map (β : Type) : Type := Nat → Option β

def Map.empty {β : Type} : Map β := fun _ => none

def Map.insert {β : Type} (m : Map β) (k : Nat) (v : β) : Map β :=
  fun k' => if k' = k then some v else m k'

abbrev Tx := Nat

abbrev TxHash := Nat

abbrev Receipt := Nat

abbrev FinalityStatus := Nat

/-- Block header: number, parent hash, state root, timestamp (protocol
fields beyond these are irrelevant to every claim and abstracted away). -/
structure Header where
  number : Nat
  parent_hash : Nat
  state_root : Nat
  timestamp : Nat
deriving DecidableEq

/-- A transaction paired with its hash, as stored in the flat array. -/
structure TxWithHash where
  hash : TxHash
  transaction : Tx
deriving DecidableEq

/-- A block as returned by the `block` query: header plus transaction body. -/
structure Block where
  header : Header
  body : List TxWithHash
deriving DecidableEq

/-- The body-slice descriptor locating a block's transactions/receipts in
the flat arrays (`StoredBlockBodyIndices` of `katana_db`). -/
structure StoredBlockBodyIndices where
  tx_offset : Nat
  tx_count : Nat
deriving DecidableEq

/-- A per-block state diff (`StateUpdates` of `katana_primitives`):
storage writes, nonce updates and class-hash bindings, as association
lists (address, key, value) / (address, value).  The declared-class
artifact tables are shared process-wide, are never queried by any claim,
and are omitted from the model. -/
structure StateUpdates where
  storage_updates : List (Nat × Nat × Nat)
  nonce_updates : List (Nat × Nat)
  contract_updates : List (Nat × Nat)
deriving DecidableEq

/-- Per-contract nonce and class-hash binding; `Default` in the source
gives zeroes (used by the auto-vivifying `entry(..).or_default()` writes). -/
structure ContractState where
  nonce : Nat
  class_hash : Nat
deriving DecidableEq

instance : Inhabited ContractState := ⟨⟨0, 0⟩⟩

/-- Modelled from the spec: `InMemoryStateDb` (declared in the missing
`state.rs`) — the mutable latest world state: per-contract storage slot
tables and per-contract nonce / class-hash state. -/
structure StateDb where
  storage : Map (Map Nat)
  contract_state : Map ContractState

def StateDb.new : StateDb :=
  { storage := Map.empty, contract_state := Map.empty }

def StateDb.get_storage (s : StateDb) (addr key : Nat) : Option Nat :=
  (s.storage addr).bind fun tbl => tbl key

def StateDb.get_nonce (s : StateDb) (addr : Nat) : Option Nat :=
  (s.contract_state addr).map ContractState.nonce

def StateDb.get_class_hash (s : StateDb) (addr : Nat) : Option Nat :=
  (s.contract_state addr).map ContractState.class_hash

/-- Storage write, auto-vivifying the per-address sub-table
(`state.storage.write().entry(address).or_default().insert(key, value)`). -/
def StateDb.set_storage (s : StateDb) (addr key value : Nat) : StateDb :=
  let tbl := (s.storage addr).getD Map.empty
  { s with storage := s.storage.insert addr (tbl.insert key value) }

def StateDb.set_nonce (s : StateDb) (addr nonce : Nat) : StateDb :=
  let cs := (s.contract_state addr).getD default
  { s with contract_state := s.contract_state.insert addr { cs with nonce := nonce } }

def StateDb.set_class_hash (s : StateDb) (addr class_hash : Nat) : StateDb :=
  let cs := (s.contract_state addr).getD default
  { s with contract_state := s.contract_state.insert addr { cs with class_hash := class_hash } }

/-- Modelled from the spec: `InMemoryStateDb::insert_updates` (missing
`state.rs`) — applies an entire batched diff (storage writes, nonce
updates, class-hash bindings) to the current state as a unit. -/
def StateDb.insert_updates (s : StateDb) (u : StateUpdates) : StateDb :=
  let s1 := u.storage_updates.foldl (fun a q => a.set_storage q.1 q.2.1 q.2.2) s
  let s2 := u.nonce_updates.foldl (fun a q => a.set_nonce q.1 q.2) s1
  u.contract_updates.foldl (fun a q => a.set_class_hash q.1 q.2) s2

/-- Modelled from the spec: `InMemoryStateDb::create_snapshot` (missing
`state.rs`) — captures the current state as an immutable point-in-time
view; subsequent overwrites of the current state do not alter it.  In the
pure model this is the current state value itself. -/
def StateDb.create_snapshot (s : StateDb) : StateDb := s

/-- Modelled from the spec: `CacheDb` (declared in the missing
`cache.rs`) — block/transaction/receipt indices of the ChainIndex.  The
fields and their key/value types are exactly those accessed by `mod.rs`:
hash↔number maps, header / status / body-indices tables keyed by block
number, the flat transaction and receipt arrays, the transaction
number↔hash maps, the transaction→block membership map and the per-block
raw state diffs. -/
structure CacheDb where
  latest_block_hash : Nat
  latest_block_number : Nat
  block_numbers : Map Nat
  block_hashes : Map Nat
  block_headers : Map Header
  block_statusses : Map FinalityStatus
  block_body_indices : Map StoredBlockBodyIndices
  transactions : List Tx
  transaction_hashes : Map TxHash
  transaction_numbers : Map Nat
  transaction_block : Map Nat
  receipts : List Receipt
  state_update : Map StateUpdates

/-- Fresh `CacheDb::new(())`: all tables empty, latest markers defaulted. -/
def CacheDb.new : CacheDb :=
  { latest_block_hash := 0
    latest_block_number := 0
    block_numbers := Map.empty
    block_hashes := Map.empty
    block_headers := Map.empty
    block_statusses := Map.empty
    block_body_indices := Map.empty
    transactions := []
    transaction_hashes := Map.empty
    transaction_numbers := Map.empty
    transaction_block := Map.empty
    receipts := []
    state_update := Map.empty }

/-- The provider: indices, current state, and the historical-state
registry (`HistoricalStates`, a map from block number to snapshot). -/
structure InMemoryProvider where
  storage : CacheDb
  state : StateDb
  historical_states : Map StateDb

/-- Fresh `InMemoryProvider::new()`. -/
def initProvider : InMemoryProvider :=
  { storage := CacheDb.new, state := StateDb.new, historical_states := Map.empty }

/-- Block selector: number or hash (`BlockHashOrNumber`). -/
inductive BlockHashOrNumber where
  | num (n : Nat)
  | hash (h : Nat)
deriving DecidableEq

/-- Outcome of a read operation.  Every read in `mod.rs` returns
`Result<Option<T>>` but syntactically never constructs an `Err`, so the
possible outcomes are `Ok(Some(v))` (`found`), `Ok(None)` (`notFound`),
or a Rust panic from an `unwrap`/`expect`/unchecked slice (`panic`). -/
inductive Lookup (α : Type) where
  | found (a : α)
  | notFound
  | panic
deriving DecidableEq

/-- Selector resolution as inlined at the top of each read in the source:
a number selector passes through, a hash selector goes through the
`block_numbers` map. -/
def CacheDb.resolveBlockNum (db : CacheDb) (id : BlockHashOrNumber) : Option Nat :=
  match id with
  | .num n => some n
  | .hash h => db.block_numbers h

def InMemoryProvider.latest_hash (p : InMemoryProvider) : Nat :=
  p.storage.latest_block_hash

def InMemoryProvider.latest_number (p : InMemoryProvider) : Nat :=
  p.storage.latest_block_number

def InMemoryProvider.block_hash_by_num (p : InMemoryProvider) (num : Nat) : Option Nat :=
  p.storage.block_hashes num

def InMemoryProvider.block_number_by_hash (p : InMemoryProvider) (hash : Nat) : Option Nat :=
  p.storage.block_numbers hash

/-- Source `HeaderProvider::header`. -/
def InMemoryProvider.header (p : InMemoryProvider) (id : BlockHashOrNumber) : Lookup Header :=
  match (p.storage.resolveBlockNum id).bind (fun num => p.storage.block_headers num) with
  | none => .notFound
  | some h => .found h

/-- Source `BlockStatusProvider::block_status`. -/
def InMemoryProvider.block_status (p : InMemoryProvider) (id : BlockHashOrNumber) :
    Lookup FinalityStatus :=
  match p.storage.resolveBlockNum id with
  | none => .notFound
  | some num =>
    match p.storage.block_statusses num with
    | none => .notFound
    | some st => .found st

/-- Source `BlockProvider::block_body_indices`. -/
def InMemoryProvider.block_body_indices (p : InMemoryProvider) (id : BlockHashOrNumber) :
    Lookup StoredBlockBodyIndices :=
  match (p.storage.resolveBlockNum id).bind (fun num => p.storage.block_body_indices num) with
  | none => .notFound
  | some bi => .found bi

/-- Helper for `transactions_by_block`: the source maps the enumerated
slice through `transaction_hashes.get(..).unwrap()`; a missing hash for
any mapped global index is a panic. -/
def collectTxs (db : CacheDb) : List (Nat × Tx) → Option (List TxWithHash)
  | [] => some []
  | q :: rest =>
    match db.transaction_hashes q.1 with
    | none => none
    | some h => (collectTxs db rest).map (fun l => ⟨h, q.2⟩ :: l)

/-- Source `TransactionProvider::transactions_by_block`: resolve the selector,
read the body slice, then take `tx_count` enumerated transactions from
global offset `tx_offset`, pairing each with its hash (unwrap). -/
def InMemoryProvider.transactions_by_block (p : InMemoryProvider) (id : BlockHashOrNumber) :
    Lookup (List TxWithHash) :=
  match (p.storage.resolveBlockNum id).bind (fun num => p.storage.block_body_indices num) with
  | none => .notFound
  | some bi =>
    match collectTxs p.storage ((p.storage.transactions.enum.drop bi.tx_offset).take bi.tx_count) with
    | none => .panic
    | some txs => .found txs

/-- Source `BlockProvider::block`: header via the resolved number, body via
`transactions_by_block` on the original selector (`unwrap_or_default`
turns `Ok(None)` into an empty body). -/
def InMemoryProvider.block (p : InMemoryProvider) (id : BlockHashOrNumber) : Lookup Block :=
  match (p.storage.resolveBlockNum id).bind (fun num => p.storage.block_headers num) with
  | none => .notFound
  | some hdr =>
    match p.transactions_by_block id with
    | .panic => .panic
    | .notFound => .found ⟨hdr, []⟩
    | .found body => .found ⟨hdr, body⟩

/-- Source `TransactionProvider::transaction_by_hash`: hash → number, then the
flat array and the number→hash map, all option-chained (a miss at any
step yields `Ok(None)`). -/
def InMemoryProvider.transaction_by_hash (p : InMemoryProvider) (hash : TxHash) :
    Lookup TxWithHash :=
  match p.storage.transaction_numbers hash with
  | none => .notFound
  | some num =>
    match p.storage.transactions.get? num with
    | none => .notFound
    | some tx =>
      match p.storage.transaction_hashes num with
      | none => .notFound
      | some h2 => .found ⟨h2, tx⟩

/-- Source `TransactionProvider::transaction_by_block_and_idx`: local indices at
or past `tx_count` give `Ok(None)`; otherwise the transaction at global
position `tx_offset + idx` is returned with its hash (option-chained). -/
def InMemoryProvider.transaction_by_block_and_idx (p : InMemoryProvider)
    (id : BlockHashOrNumber) (idx : Nat) : Lookup TxWithHash :=
  match (p.storage.resolveBlockNum id).bind (fun num => p.storage.block_body_indices num) with
  | none => .notFound
  | some bi =>
    if bi.tx_count ≤ idx then .notFound
    else
      match p.storage.transactions.get? (bi.tx_offset + idx) with
      | none => .notFound
      | some tx =>
        match p.storage.transaction_hashes (bi.tx_offset + idx) with
        | none => .notFound
        | some h => .found ⟨h, tx⟩

/-- Source `TransactionProvider::transaction_count_by_block`. -/
def InMemoryProvider.transaction_count_by_block (p : InMemoryProvider)
    (id : BlockHashOrNumber) : Lookup Nat :=
  match (p.storage.resolveBlockNum id).bind (fun num => p.storage.block_body_indices num) with
  | none => .notFound
  | some bi => .found bi.tx_count

/-- Source `TransactionProvider::transaction_block_num_and_hash`: an unknown
transaction hash is `Ok(None)`, but once the transaction number is found
the block membership and block hash are read with `expect` — a missing
entry is a panic. -/
def InMemoryProvider.transaction_block_num_and_hash (p : InMemoryProvider) (hash : TxHash) :
    Lookup (Nat × Nat) :=
  match p.storage.transaction_numbers hash with
  | none => .notFound
  | some num =>
    match p.storage.transaction_block num with
    | none => .panic
    | some bn =>
      match p.storage.block_hashes bn with
      | none => .panic
      | some bh => .found (bn, bh)

/-- Source `ReceiptProvider::receipt_by_hash`. -/
def InMemoryProvider.receipt_by_hash (p : InMemoryProvider) (hash : TxHash) : Lookup Receipt :=
  match p.storage.transaction_numbers hash with
  | none => .notFound
  | some num =>
    match p.storage.receipts.get? num with
    | none => .notFound
    | some r => .found r

/-- Source `ReceiptProvider::receipts_by_block`: the body slice is applied to the
flat receipts array with an unchecked range index
(`receipts[offset..offset + count]`), which panics when the slice extends
past the end of the array. -/
def InMemoryProvider.receipts_by_block (p : InMemoryProvider) (id : BlockHashOrNumber) :
    Lookup (List Receipt) :=
  match (p.storage.resolveBlockNum id).bind (fun num => p.storage.block_body_indices num) with
  | none => .notFound
  | some bi =>
    if bi.tx_offset + bi.tx_count ≤ p.storage.receipts.length then
      .found ((p.storage.receipts.drop bi.tx_offset).take bi.tx_count)
    else .panic

/-- Source `StateUpdateProvider::state_update`. -/
def InMemoryProvider.state_update (p : InMemoryProvider) (id : BlockHashOrNumber) :
    Lookup StateUpdates :=
  match (p.storage.resolveBlockNum id).bind (fun num => p.storage.state_update num) with
  | none => .notFound
  | some su => .found su

/-- Source `StateFactoryProvider::historical`: resolve the selector (the hash
path goes through `block_number_by_hash`, i.e. the same map), then look
up the registered snapshot; an unknown block is `Ok(None)`. -/
def InMemoryProvider.historical (p : InMemoryProvider) (id : BlockHashOrNumber) :
    Lookup StateDb :=
  match p.storage.resolveBlockNum id with
  | none => .notFound
  | some num =>
    match p.historical_states num with
    | none => .notFound
    | some snap => .found snap

/-- Source `StateFactoryProvider::latest`: a view over the current state. -/
def InMemoryProvider.latest (p : InMemoryProvider) : StateDb := p.state

/-- Modelled from the spec: the `block_number_by_id` resolution helper
(a provided method of the block-provider trait, not in the sources) —
a number selector resolves to itself, a hash selector through the
hash→number map, a miss short-circuiting to "not found". -/
def InMemoryProvider.block_number_by_id (p : InMemoryProvider) (id : BlockHashOrNumber) :
    Option Nat :=
  match id with
  | .num n => some n
  | .hash h => p.storage.block_numbers h

/-- Source `StateRootProvider::state_root`: the root recorded in the stored
header, never recomputed. -/
def InMemoryProvider.state_root (p : InMemoryProvider) (id : BlockHashOrNumber) : Lookup Nat :=
  match (p.block_number_by_id id).bind
      (fun num => (p.storage.block_headers num).map Header.state_root) with
  | none => .notFound
  | some r => .found r

/-- The input of one `insert_block_with_states_and_receipts` call: the
sealed block with status (hash, header, status, body), the state diff,
and the receipts list. -/
structure CommitInput where
  bhash : Nat
  header : Header
  status : FinalityStatus
  body : List TxWithHash
  states : StateUpdates
  receipts : List Receipt
deriving DecidableEq

def CommitInput.number (c : CommitInput) : Nat := c.header.number

/-- The `CacheDb` mutations of `insert_block_with_states_and_receipts`,
exactly in source order: compute the body slice from the current flat
array length, record latest markers, hash↔number, header, status and
body-indices entries, extend the flat transaction/receipt arrays and the
transaction number↔hash / membership maps, and record the raw diff. -/
def commitStorage (db : CacheDb) (c : CommitInput) : CacheDb :=
  let block_hash := c.bhash
  let block_number := c.header.number
  let tx_count := c.body.length
  let tx_offset := db.transactions.length
  let bbi : StoredBlockBodyIndices := ⟨tx_offset, tx_count⟩
  let txs_id := c.body.enum.map (fun q => (q.1 + tx_offset, q.2.hash))
  let txs := c.body.map TxWithHash.transaction
  { db with
    latest_block_hash := block_hash
    latest_block_number := block_number
    block_numbers := db.block_numbers.insert block_hash block_number
    block_hashes := db.block_hashes.insert block_number block_hash
    block_headers := db.block_headers.insert block_number c.header
    block_statusses := db.block_statusses.insert block_number c.status
    block_body_indices := db.block_body_indices.insert block_number bbi
    transactions := db.transactions ++ txs
    transaction_hashes := txs_id.foldl (fun m q => m.insert q.1 q.2) db.transaction_hashes
    transaction_numbers :=
      (txs_id.map (fun q => (q.2, q.1))).foldl (fun m q => m.insert q.1 q.2) db.transaction_numbers
    transaction_block :=
      (txs_id.map (fun q => (q.1, block_number))).foldl (fun m q => m.insert q.1 q.2)
        db.transaction_block
    receipts := db.receipts ++ c.receipts
    state_update := db.state_update.insert block_number c.states }

/-- The provider after the index and current-state mutations of a commit,
before the historical registration (steps 1–4 of the commit). -/
def commitMutations (p : InMemoryProvider) (c : CommitInput) : InMemoryProvider :=
  { storage := commitStorage p.storage c
    state := p.state.insert_updates c.states
    historical_states := p.historical_states }

/-- The provider after a fully successful commit: the mutations plus the
snapshot registered under the new block number (step 5). -/
def commitFull (p : InMemoryProvider) (c : CommitInput) : InMemoryProvider :=
  let q := commitMutations p c
  { q with
    historical_states := q.historical_states.insert c.number q.state.create_snapshot }

/-- Result of a commit: either the fully committed provider, or a fatal
rejection carrying the provider state at the point of the panic. -/
inductive CommitResult where
  | ok (p : InMemoryProvider)
  | panic (p : InMemoryProvider)

/-- Source `BlockWriter::insert_block_with_states_and_receipts`.  All index and
state mutations are performed unconditionally; registering the snapshot
in `HistoricalStates` is modelled from the spec (missing `state.rs`):
`register` rejects (fatally) a duplicate registration for an
already-registered block number, so a duplicate block number panics after
the mutations, and otherwise the snapshot is registered and the commit
returns `Ok(())`. -/
def insert_block_with_states_and_receipts (p : InMemoryProvider) (c : CommitInput) :
    CommitResult :=
  if (p.historical_states c.number).isSome then .panic (commitMutations p c)
  else .ok (commitFull p c)

/-- A sequence of commits from a given provider; `none` if any commit
panicked. -/
def commitChain : InMemoryProvider → List CommitInput → Option InMemoryProvider
  | p, [] => some p
  | p, c :: cs =>
    match insert_block_with_states_and_receipts p c with
    | .ok q => commitChain q cs
    | .panic _ => none

/-- The provider after a sequence of successful commits from fresh. -/
def chainState (cs : List CommitInput) : InMemoryProvider :=
  cs.foldl commitFull initProvider

/-- Block numbers of a commit sequence, in commit order. -/
def nums (cs : List CommitInput) : List Nat := cs.map CommitInput.number

/-- Block hashes of a commit sequence, in commit order. -/
def bhashes (cs : List CommitInput) : List Nat := cs.map CommitInput.bhash

/-- The flat transaction-with-hash array a commit sequence builds. -/
def txwsFlat (cs : List CommitInput) : List TxWithHash :=
  (cs.map CommitInput.body).flatten

/-- The flat transaction array a commit sequence builds. -/
def txsFlat (cs : List CommitInput) : List Tx :=
  (cs.map (fun c => c.body.map TxWithHash.transaction)).flatten

/-- The flat receipts array a commit sequence builds. -/
def rcptsFlat (cs : List CommitInput) : List Receipt :=
  (cs.map CommitInput.receipts).flatten

/-- Total number of transactions committed by the first `i` commits —
the `tx_offset` the `i`-th commit records. -/
def offsetAt (cs : List CommitInput) (i : Nat) : Nat :=
  ((cs.take i).map (fun c => c.body.length)).sum

/-- The state obtained by applying exactly the state diffs of commits
`0..i` (inclusive) to the fresh state — what the snapshot registered for
the `i`-th committed block must answer with. -/
def snapAt (cs : List CommitInput) (i : Nat) : StateDb :=
  ((cs.take (i + 1)).map CommitInput.states).foldl StateDb.insert_updates StateDb.new

theorem Map.empty_apply {β : Type} (k : Nat) : (Map.empty : Map β) k = none := rfl

theorem Map.insert_self {β : Type} (m : Map β) (k : Nat) (v : β) : m.insert k v k = some v := by
  simp [Map.insert]

theorem Map.insert_ne {β : Type} (m : Map β) (k k' : Nat) (v : β) (h : k' ≠ k) :
    m.insert k v k' = m k' := by
  simp [Map.insert, h]

@[simp] theorem commitFull_storage (p : InMemoryProvider) (c : CommitInput) :
    (commitFull p c).storage = commitStorage p.storage c := rfl

@[simp] theorem commitFull_state (p : InMemoryProvider) (c : CommitInput) :
    (commitFull p c).state = p.state.insert_updates c.states := rfl

@[simp] theorem commitFull_historical (p : InMemoryProvider) (c : CommitInput) :
    (commitFull p c).historical_states
      = p.historical_states.insert c.number (p.state.insert_updates c.states) := rfl

@[simp] theorem commitMutations_storage (p : InMemoryProvider) (c : CommitInput) :
    (commitMutations p c).storage = commitStorage p.storage c := rfl

@[simp] theorem commitMutations_state (p : InMemoryProvider) (c : CommitInput) :
    (commitMutations p c).state = p.state.insert_updates c.states := rfl

@[simp] theorem commitMutations_historical (p : InMemoryProvider) (c : CommitInput) :
    (commitMutations p c).historical_states = p.historical_states := rfl

@[simp] theorem commitStorage_transactions (db : CacheDb) (c : CommitInput) :
    (commitStorage db c).transactions = db.transactions ++ c.body.map TxWithHash.transaction := rfl

@[simp] theorem commitStorage_receipts (db : CacheDb) (c : CommitInput) :
    (commitStorage db c).receipts = db.receipts ++ c.receipts := rfl

@[simp] theorem commitStorage_block_numbers (db : CacheDb) (c : CommitInput) :
    (commitStorage db c).block_numbers = db.block_numbers.insert c.bhash c.number := rfl

@[simp] theorem commitStorage_block_hashes (db : CacheDb) (c : CommitInput) :
    (commitStorage db c).block_hashes = db.block_hashes.insert c.number c.bhash := rfl

@[simp] theorem commitStorage_block_headers (db : CacheDb) (c : CommitInput) :
    (commitStorage db c).block_headers = db.block_headers.insert c.number c.header := rfl

@[simp] theorem commitStorage_block_statusses (db : CacheDb) (c : CommitInput) :
    (commitStorage db c).block_statusses = db.block_statusses.insert c.number c.status := rfl

@[simp] theorem commitStorage_block_body_indices (db : CacheDb) (c : CommitInput) :
    (commitStorage db c).block_body_indices
      = db.block_body_indices.insert c.number ⟨db.transactions.length, c.body.length⟩ := rfl

@[simp] theorem commitStorage_state_update (db : CacheDb) (c : CommitInput) :
    (commitStorage db c).state_update = db.state_update.insert c.number c.states := rfl

theorem commitStorage_transaction_hashes (db : CacheDb) (c : CommitInput) :
    (commitStorage db c).transaction_hashes
      = (c.body.enum.map (fun q => (q.1 + db.transactions.length, q.2.hash))).foldl
          (fun m q => m.insert q.1 q.2) db.transaction_hashes := rfl

theorem commitStorage_transaction_numbers (db : CacheDb) (c : CommitInput) :
    (commitStorage db c).transaction_numbers
      = ((c.body.enum.map (fun q => (q.1 + db.transactions.length, q.2.hash))).map
          (fun q => (q.2, q.1))).foldl (fun m q => m.insert q.1 q.2) db.transaction_numbers := rfl

@[simp] theorem nums_append (ds es : List CommitInput) :
    nums (ds ++ es) = nums ds ++ nums es := by
  simp [nums]

@[simp] theorem nums_length (cs : List CommitInput) : (nums cs).length = cs.length := by
  simp [nums]

@[simp] theorem bhashes_append (ds es : List CommitInput) :
    bhashes (ds ++ es) = bhashes ds ++ bhashes es := by
  simp [bhashes]

@[simp] theorem txwsFlat_append (ds es : List CommitInput) :
    txwsFlat (ds ++ es) = txwsFlat ds ++ txwsFlat es := by
  simp [txwsFlat]

@[simp] theorem txwsFlat_singleton (c : CommitInput) : txwsFlat [c] = c.body := by
  simp [txwsFlat]

@[simp] theorem txsFlat_append (ds es : List CommitInput) :
    txsFlat (ds ++ es) = txsFlat ds ++ txsFlat es := by
  simp [txsFlat]

@[simp] theorem rcptsFlat_append (ds es : List CommitInput) :
    rcptsFlat (ds ++ es) = rcptsFlat ds ++ rcptsFlat es := by
  simp [rcptsFlat]

@[simp] theorem rcptsFlat_singleton (c : CommitInput) : rcptsFlat [c] = c.receipts := by
  simp [rcptsFlat]

theorem txsFlat_eq_map (cs : List CommitInput) :
    txsFlat cs = (txwsFlat cs).map TxWithHash.transaction := by
  rw [txsFlat, txwsFlat, List.map_flatten, List.map_map]
  rfl

theorem txwsFlat_length (cs : List CommitInput) :
    (txwsFlat cs).length = offsetAt cs cs.length := by
  simp only [txwsFlat, offsetAt, List.length_flatten, List.take_length, List.map_map]
  rfl

theorem offsetAt_append_le (ds es : List CommitInput) (i : Nat) (hi : i ≤ ds.length) :
    offsetAt (ds ++ es) i = offsetAt ds i := by
  simp [offsetAt, List.take_append_of_le_length hi]

theorem offsetAt_succ (cs : List CommitInput) (i : Nat) (hi : i < cs.length) :
    offsetAt cs (i + 1) = offsetAt cs i + cs[i].body.length := by
  unfold offsetAt
  rw [List.map_take, List.map_take, List.take_succ, List.getElem?_map,
    List.getElem?_eq_getElem hi]
  simp

theorem offsetAt_le_total (cs : List CommitInput) (i : Nat) :
    offsetAt cs i ≤ (txwsFlat cs).length := by
  rw [txwsFlat_length]
  unfold offsetAt
  conv_rhs => rw [List.take_length, ← List.take_append_drop i cs]
  rw [List.map_append, List.sum_append]
  exact Nat.le_add_right _ _

theorem snapAt_append_lt (ds es : List CommitInput) (i : Nat) (hi : i < ds.length) :
    snapAt (ds ++ es) i = snapAt ds i := by
  simp [snapAt, List.take_append_of_le_length (by omega : i + 1 ≤ ds.length)]

theorem snapAt_concat_last (ds : List CommitInput) (c : CommitInput) :
    snapAt (ds ++ [c]) ds.length
      = ((ds.map CommitInput.states).foldl StateDb.insert_updates StateDb.new).insert_updates
          c.states := by
  have h : (ds ++ [c]).take (ds.length + 1) = ds ++ [c] := by
    apply List.take_of_length_le
    simp
  simp [snapAt, h, List.foldl_append]

theorem foldl_insert_not_mem {β : Type} :
    ∀ (l : List (Nat × β)) (m : Map β) (k : Nat), k ∉ l.map Prod.fst →
      l.foldl (fun m q => m.insert q.1 q.2) m k = m k
  | [], _, _, _ => rfl
  | q :: l, m, k, h => by
    simp only [List.map_cons, List.mem_cons, not_or] at h
    rw [List.foldl_cons, foldl_insert_not_mem l _ k h.2, Map.insert_ne _ _ _ _ h.1]

theorem foldl_insert_mem_nodup {β : Type} :
    ∀ (l : List (Nat × β)) (m : Map β) (k : Nat) (v : β),
      (l.map Prod.fst).Nodup → (k, v) ∈ l →
      l.foldl (fun m q => m.insert q.1 q.2) m k = some v
  | [], _, _, _, _, hm => by cases hm
  | q :: l, m, k, v, hnd, hm => by
    simp only [List.map_cons, List.nodup_cons] at hnd
    rw [List.foldl_cons]
    rcases List.mem_cons.1 hm with h | h
    · have hq1 : q.1 = k := by rw [← h]
      have hnot : k ∉ l.map Prod.fst := by
        rw [← hq1]
        exact hnd.1
      rw [foldl_insert_not_mem l _ k hnot, hq1]
      have hq2 : q.2 = v := by rw [← h]
      rw [Map.insert_self, hq2]
    · exact foldl_insert_mem_nodup l _ k v hnd.2 h

/-- The key list of the enumerated transaction-id pairs built by a
commit: the global transaction numbers `tx_offset .. tx_offset + count`. -/
theorem txsId_keys (body : List TxWithHash) (off : Nat) :
    (body.enum.map (fun q => (q.1 + off, q.2.hash))).map Prod.fst
      = (List.range body.length).map (fun j => j + off) := by
  rw [List.map_map]
  rw [show (Prod.fst ∘ fun q : Nat × TxWithHash => (q.1 + off, q.2.hash))
      = ((fun j => j + off) ∘ Prod.fst) from rfl]
  rw [← List.map_map, List.enum_map_fst]

theorem txsId_keys_nodup (body : List TxWithHash) (off : Nat) :
    ((body.enum.map (fun q => (q.1 + off, q.2.hash))).map Prod.fst).Nodup := by
  rw [txsId_keys]
  exact (List.nodup_range body.length).map (fun a b h => by omega)

theorem txsId_mem (body : List TxWithHash) (off : Nat) (j : Nat) (hj : j < body.length) :
    (j + off, body[j].hash) ∈ body.enum.map (fun q => (q.1 + off, q.2.hash)) := by
  have h : (body.enum.map (fun q => (q.1 + off, q.2.hash)))[j]? = some (j + off, body[j].hash) := by
    rw [List.getElem?_map, List.getElem?_enum, List.getElem?_eq_getElem hj]
    rfl
  exact List.getElem?_mem h

/-- Pointwise value of the `transaction_hashes` map after a commit: the
freshly assigned global numbers map to the new block's transaction
hashes, every other key is untouched. -/
theorem commit_txhashes_char (db : CacheDb) (c : CommitInput) (n : Nat) :
    (commitStorage db c).transaction_hashes n
      = if db.transactions.length ≤ n ∧ n < db.transactions.length + c.body.length
        then (c.body[n - db.transactions.length]?).map TxWithHash.hash
        else db.transaction_hashes n := by
  rw [commitStorage_transaction_hashes]
  by_cases h : db.transactions.length ≤ n ∧ n < db.transactions.length + c.body.length
  · rw [if_pos h]
    have hj : n - db.transactions.length < c.body.length := by omega
    have hmem := txsId_mem c.body db.transactions.length (n - db.transactions.length) hj
    rw [show n - db.transactions.length + db.transactions.length = n from by omega] at hmem
    rw [foldl_insert_mem_nodup _ _ _ _ (txsId_keys_nodup c.body db.transactions.length) hmem]
    rw [List.getElem?_eq_getElem hj]
    rfl
  · rw [if_neg h]
    apply foldl_insert_not_mem
    rw [txsId_keys]
    intro hmem
    rcases List.mem_map.1 hmem with ⟨j, hjr, hje⟩
    rw [List.mem_range] at hjr
    omega

/-- A transaction hash not among the new block's transaction hashes keeps
its previous `transaction_numbers` entry after a commit. -/
theorem commit_txnumbers_not_mem (db : CacheDb) (c : CommitInput) (h : TxHash)
    (hh : h ∉ c.body.map TxWithHash.hash) :
    (commitStorage db c).transaction_numbers h = db.transaction_numbers h := by
  rw [commitStorage_transaction_numbers]
  apply foldl_insert_not_mem
  rw [List.map_map, List.map_map]
  rw [show ((Prod.fst ∘ fun q : Nat × TxHash => (q.2, q.1))
      ∘ fun q : Nat × TxWithHash => (q.1 + db.transactions.length, q.2.hash))
      = (TxWithHash.hash ∘ Prod.snd) from rfl]
  rw [← List.map_map, List.enum_map_snd]
  exact hh

/-- Indexing into a flattened list-of-lists: position (sum of the lengths
of the first `i` chunks) + `j` lands at element `j` of chunk `i`. -/
theorem flatten_getElem_offset {α : Type} (xss : List (List α)) (i j : Nat)
    (hi : i < xss.length) (hj : j < xss[i].length) :
    xss.flatten[((xss.map List.length).take i).sum + j]? = some (xss[i][j]) := by
  have hdec : xss = xss.take i ++ (xss[i] :: xss.drop (i + 1)) := by
    conv_lhs => rw [← List.take_append_drop i xss]
    rw [List.drop_eq_getElem_cons hi]
  have hflat : xss.flatten = (xss.take i).flatten ++ (xss[i] ++ (xss.drop (i + 1)).flatten) := by
    conv_lhs => rw [hdec]
    rw [List.flatten_append, List.flatten_cons]
  have hlen : ((xss.take i).flatten).length = ((xss.map List.length).take i).sum := by
    rw [List.length_flatten, List.map_take]
  rw [hflat, List.getElem?_append_right (by rw [hlen]; omega)]
  rw [hlen, show ((xss.map List.length).take i).sum + j - ((xss.map List.length).take i).sum = j
    from by omega]
  rw [List.getElem?_append_left hj, List.getElem?_eq_getElem hj]

/-- Slicing a flattened list-of-lists at the offset of chunk `i` with the
length of chunk `i` recovers exactly chunk `i`. -/
theorem flatten_drop_take {α : Type} (xss : List (List α)) (i : Nat) (hi : i < xss.length) :
    (xss.flatten.drop (((xss.map List.length).take i).sum)).take xss[i].length = xss[i] := by
  have hdec : xss = xss.take i ++ (xss[i] :: xss.drop (i + 1)) := by
    conv_lhs => rw [← List.take_append_drop i xss]
    rw [List.drop_eq_getElem_cons hi]
  have hflat : xss.flatten = (xss.take i).flatten ++ (xss[i] ++ (xss.drop (i + 1)).flatten) := by
    conv_lhs => rw [hdec]
    rw [List.flatten_append, List.flatten_cons]
  have hlen : ((xss.take i).flatten).length = ((xss.map List.length).take i).sum := by
    rw [List.length_flatten, List.map_take]
  rw [hflat, ← hlen, List.drop_left, List.take_left]

@[simp] theorem nums_singleton (c : CommitInput) : nums [c] = [c.number] := by
  simp [nums]

@[simp] theorem bhashes_singleton (c : CommitInput) : bhashes [c] = [c.bhash] := by
  simp [bhashes]

@[simp] theorem txsFlat_singleton (c : CommitInput) :
    txsFlat [c] = c.body.map TxWithHash.transaction := by
  simp [txsFlat]

/-- The invariant characterizing the provider state after successfully
committing the sequence `cs` from a fresh provider: every index table
holds exactly the data of the commits, the flat arrays are the
concatenations of the per-commit data, each registered snapshot is the
fold of exactly the diff prefix up to its block, and every key never
committed is absent from every table. -/
structure Inv (cs : List CommitInput) (p : InMemoryProvider) : Prop where
  txs_eq : p.storage.transactions = txsFlat cs
  rcpts_eq : p.storage.receipts = rcptsFlat cs
  th_char : ∀ n, p.storage.transaction_hashes n = ((txwsFlat cs)[n]?).map TxWithHash.hash
  tn_absent : ∀ h, h ∉ (txwsFlat cs).map TxWithHash.hash → p.storage.transaction_numbers h = none
  hdr_at : ∀ i (hi : i < cs.length), p.storage.block_headers (cs[i].number) = some (cs[i].header)
  hdr_absent : ∀ n, n ∉ nums cs → p.storage.block_headers n = none
  st_absent : ∀ n, n ∉ nums cs → p.storage.block_statusses n = none
  bbi_at : ∀ i (hi : i < cs.length),
    p.storage.block_body_indices (cs[i].number) = some ⟨offsetAt cs i, cs[i].body.length⟩
  bbi_absent : ∀ n, n ∉ nums cs → p.storage.block_body_indices n = none
  bn_at : ∀ i (hi : i < cs.length),
    (∀ j (hj : j < cs.length), i < j → cs[j].bhash ≠ cs[i].bhash) →
    p.storage.block_numbers (cs[i].bhash) = some (cs[i].number)
  bn_absent : ∀ h, h ∉ bhashes cs → p.storage.block_numbers h = none
  su_absent : ∀ n, n ∉ nums cs → p.storage.state_update n = none
  hist_at : ∀ i (hi : i < cs.length), p.historical_states (cs[i].number) = some (snapAt cs i)
  hist_absent : ∀ n, n ∉ nums cs → p.historical_states n = none
  state_eq : p.state = (cs.map CommitInput.states).foldl StateDb.insert_updates StateDb.new

theorem Inv.base : Inv [] initProvider where
  txs_eq := rfl
  rcpts_eq := rfl
  th_char := fun n => by simp [initProvider, CacheDb.new, Map.empty, txwsFlat]
  tn_absent := fun _ _ => rfl
  hdr_at := fun i hi => by simp at hi
  hdr_absent := fun _ _ => rfl
  st_absent := fun _ _ => rfl
  bbi_at := fun i hi => by simp at hi
  bbi_absent := fun _ _ => rfl
  bn_at := fun i hi => by simp at hi
  bn_absent := fun _ _ => rfl
  su_absent := fun _ _ => rfl
  hist_at := fun i hi => by simp at hi
  hist_absent := fun _ _ => rfl
  state_eq := rfl

theorem Inv.step {ds : List CommitInput} {p : InMemoryProvider} (hp : Inv ds p)
    (c : CommitInput) (hnew : c.number ∉ nums ds) : Inv (ds ++ [c]) (commitFull p c) := by
  have hoff : p.storage.transactions.length = (txwsFlat ds).length := by
    rw [hp.txs_eq, txsFlat_eq_map, List.length_map]
  have hmemnum : ∀ i (hi2 : i < ds.length), ds[i].number ∈ nums ds := by
    intro i hi2
    exact List.mem_map_of_mem CommitInput.number (List.getElem_mem hi2)
  refine ⟨?_, ?_, ?_, ?_, ?_, ?_, ?_, ?_, ?_, ?_, ?_, ?_, ?_, ?_, ?_⟩
  · rw [commitFull_storage, commitStorage_transactions, hp.txs_eq, txsFlat_append,
      txsFlat_singleton]
  · rw [commitFull_storage, commitStorage_receipts, hp.rcpts_eq, rcptsFlat_append,
      rcptsFlat_singleton]
  · intro n
    rw [commitFull_storage, commit_txhashes_char, hoff, txwsFlat_append, txwsFlat_singleton]
    by_cases h1 : (txwsFlat ds).length ≤ n ∧ n < (txwsFlat ds).length + c.body.length
    · rw [if_pos h1, List.getElem?_append_right h1.1]
    · rw [if_neg h1, hp.th_char n]
      by_cases h2 : n < (txwsFlat ds).length
      · rw [List.getElem?_append_left h2]
      · rw [List.getElem?_append_right (by omega)]
        rw [List.getElem?_eq_none (l := txwsFlat ds) (by omega),
          List.getElem?_eq_none (l := c.body) (by omega)]
  · intro h hh
    rw [txwsFlat_append, txwsFlat_singleton, List.map_append, List.mem_append, not_or] at hh
    rw [commitFull_storage, commit_txnumbers_not_mem _ _ _ hh.2]
    exact hp.tn_absent h hh.1
  · intro i hi
    rw [commitFull_storage, commitStorage_block_headers]
    by_cases hlt : i < ds.length
    · have hget : (ds ++ [c])[i] = ds[i] := List.getElem_append_left hlt
      have hne : ds[i].number ≠ c.number := by
        intro heq
        exact hnew (heq ▸ hmemnum i hlt)
      rw [hget, Map.insert_ne _ _ _ _ hne]
      exact hp.hdr_at i hlt
    · have heq : i = ds.length := by
        have := hi
        simp only [List.length_append, List.length_singleton] at this
        omega
      have hget : (ds ++ [c])[i] = c := List.getElem_concat_length ds c i heq hi
      rw [hget, Map.insert_self]
  · intro n hn
    rw [nums_append, nums_singleton, List.mem_append, List.mem_singleton, not_or] at hn
    rw [commitFull_storage, commitStorage_block_headers, Map.insert_ne _ _ _ _ hn.2]
    exact hp.hdr_absent n hn.1
  · intro n hn
    rw [nums_append, nums_singleton, List.mem_append, List.mem_singleton, not_or] at hn
    rw [commitFull_storage, commitStorage_block_statusses, Map.insert_ne _ _ _ _ hn.2]
    exact hp.st_absent n hn.1
  · intro i hi
    rw [commitFull_storage, commitStorage_block_body_indices]
    by_cases hlt : i < ds.length
    · have hget : (ds ++ [c])[i] = ds[i] := List.getElem_append_left hlt
      have hne : ds[i].number ≠ c.number := by
        intro heq
        exact hnew (heq ▸ hmemnum i hlt)
      rw [hget, Map.insert_ne _ _ _ _ hne]
      rw [offsetAt_append_le ds [c] i (Nat.le_of_lt hlt)]
      exact hp.bbi_at i hlt
    · have heq : i = ds.length := by
        have := hi
        simp only [List.length_append, List.length_singleton] at this
        omega
      have hget : (ds ++ [c])[i] = c := List.getElem_concat_length ds c i heq hi
      rw [hget, Map.insert_self, heq, offsetAt_append_le ds [c] ds.length (Nat.le_refl _)]
      rw [← txwsFlat_length, ← hoff]
  · intro n hn
    rw [nums_append, nums_singleton, List.mem_append, List.mem_singleton, not_or] at hn
    rw [commitFull_storage, commitStorage_block_body_indices, Map.insert_ne _ _ _ _ hn.2]
    exact hp.bbi_absent n hn.1
  · intro i hi hcond
    rw [commitFull_storage, commitStorage_block_numbers]
    by_cases hlt : i < ds.length
    · have hget : (ds ++ [c])[i] = ds[i] := List.getElem_append_left hlt
      have hclast : (ds ++ [c])[ds.length] = c :=
        List.getElem_concat_length ds c ds.length rfl (by simp)
      have hcj := hcond ds.length (by simp) hlt
      rw [hclast, hget] at hcj
      rw [hget, Map.insert_ne _ _ _ _ (Ne.symm hcj)]
      refine hp.bn_at i hlt ?_
      intro j hj hij
      have hcj2 := hcond j (by simp only [List.length_append, List.length_singleton]; omega) hij
      rw [hget, List.getElem_append_left hj] at hcj2
      exact hcj2
    · have heq : i = ds.length := by
        have := hi
        simp only [List.length_append, List.length_singleton] at this
        omega
      have hget : (ds ++ [c])[i] = c := List.getElem_concat_length ds c i heq hi
      rw [hget, Map.insert_self]
  · intro h hh
    rw [bhashes_append, bhashes_singleton, List.mem_append, List.mem_singleton, not_or] at hh
    rw [commitFull_storage, commitStorage_block_numbers, Map.insert_ne _ _ _ _ hh.2]
    exact hp.bn_absent h hh.1
  · intro n hn
    rw [nums_append, nums_singleton, List.mem_append, List.mem_singleton, not_or] at hn
    rw [commitFull_storage, commitStorage_state_update, Map.insert_ne _ _ _ _ hn.2]
    exact hp.su_absent n hn.1
  · intro i hi
    rw [commitFull_historical]
    by_cases hlt : i < ds.length
    · have hget : (ds ++ [c])[i] = ds[i] := List.getElem_append_left hlt
      have hne : ds[i].number ≠ c.number := by
        intro heq
        exact hnew (heq ▸ hmemnum i hlt)
      rw [hget, Map.insert_ne _ _ _ _ hne]
      rw [snapAt_append_lt ds [c] i hlt]
      exact hp.hist_at i hlt
    · have heq : i = ds.length := by
        have := hi
        simp only [List.length_append, List.length_singleton] at this
        omega
      have hget : (ds ++ [c])[i] = c := List.getElem_concat_length ds c i heq hi
      rw [hget, Map.insert_self, heq, snapAt_concat_last, hp.state_eq]
  · intro n hn
    rw [nums_append, nums_singleton, List.mem_append, List.mem_singleton, not_or] at hn
    rw [commitFull_historical, Map.insert_ne _ _ _ _ hn.2]
    exact hp.hist_absent n hn.1
  · rw [commitFull_state, hp.state_eq]
    simp [List.foldl_append]

/-- The invariant holds after any duplicate-free commit sequence. -/
theorem chain_inv (cs : List CommitInput) (hnd : (nums cs).Nodup) : Inv cs (chainState cs) := by
  induction cs using List.reverseRecOn with
  | nil => exact Inv.base
  | append_singleton ds c ih =>
    rw [nums_append, nums_singleton] at hnd
    rcases List.nodup_append.1 hnd with ⟨h1, _, hdisj⟩
    have hnotin : c.number ∉ nums ds := List.disjoint_singleton.1 hdisj
    have hcs : chainState (ds ++ [c]) = commitFull (chainState ds) c := by
      simp [chainState, List.foldl_append]
    rw [hcs]
    exact (ih h1).step c hnotin

theorem commitChain_append (l1 l2 : List CommitInput) :
    ∀ p, commitChain p (l1 ++ l2) = (commitChain p l1).bind (fun q => commitChain q l2) := by
  induction l1 with
  | nil => intro p; rfl
  | cons c l ih =>
    intro p
    rcases h : insert_block_with_states_and_receipts p c with q | q
    · rw [List.cons_append]
      rw [show commitChain p (c :: (l ++ l2)) = commitChain q (l ++ l2) from by
        rw [commitChain, h]]
      rw [show commitChain p (c :: l) = commitChain q l from by rw [commitChain, h]]
      exact ih q
    · rw [List.cons_append]
      rw [show commitChain p (c :: (l ++ l2)) = none from by rw [commitChain, h]]
      rw [show commitChain p (c :: l) = none from by rw [commitChain, h]]
      rfl

/-- A duplicate-free commit sequence from a fresh provider never panics,
and the resulting provider is the fold of the successful commit steps. -/
theorem commitChain_eq_chainState (cs : List CommitInput) (hnd : (nums cs).Nodup) :
    commitChain initProvider cs = some (chainState cs) := by
  induction cs using List.reverseRecOn with
  | nil => rfl
  | append_singleton ds c ih =>
    rw [nums_append, nums_singleton] at hnd
    rcases List.nodup_append.1 hnd with ⟨h1, _, hdisj⟩
    have hnotin : c.number ∉ nums ds := List.disjoint_singleton.1 hdisj
    have habs : (chainState ds).historical_states c.number = none :=
      (chain_inv ds h1).hist_absent c.number hnotin
    rw [commitChain_append, ih h1, Option.some_bind]
    have hcs : chainState (ds ++ [c]) = commitFull (chainState ds) c := by
      simp [chainState, List.foldl_append]
    rw [hcs]
    show (match insert_block_with_states_and_receipts (chainState ds) c with
      | .ok q => commitChain q []
      | .panic _ => none) = some (commitFull (chainState ds) c)
    rw [insert_block_with_states_and_receipts, habs]
    rfl

theorem collectTxs_eq_some (db : CacheDb) :
    ∀ (l : List (Nat × Tx)) (ws : List TxWithHash), l.length = ws.length →
      (∀ j (hj : j < l.length) (hw : j < ws.length),
        db.transaction_hashes (l[j].1) = some (ws[j].hash) ∧ l[j].2 = ws[j].transaction) →
      collectTxs db l = some ws
  | [], [], _, _ => rfl
  | [], _ :: _, h, _ => by simp at h
  | _ :: _, [], h, _ => by simp at h
  | q :: l, w :: ws, h, hj => by
    have h0 := hj 0 (by simp) (by simp)
    simp only [List.getElem_cons_zero] at h0
    rw [collectTxs, h0.1]
    rw [collectTxs_eq_some db l ws (by simpa using h) (fun j hj1 hw1 => by
      have := hj (j + 1) (by simpa using Nat.succ_lt_succ hj1) (by simpa using Nat.succ_lt_succ hw1)
      simpa using this)]
    show some (⟨w.hash, q.2⟩ :: ws) = some (w :: ws)
    rw [h0.2]

theorem offsetAt_eq_mapsum (cs : List CommitInput) (i : Nat) :
    offsetAt cs i = (((cs.map CommitInput.body).map List.length).take i).sum := by
  unfold offsetAt
  rw [List.map_take, List.map_map]
  rfl

/-- Element of the flat transaction-with-hash array at the global
position `tx_offset` of block `i` plus local index `j`. -/
theorem txwsFlat_getElem_at (cs : List CommitInput) (i j : Nat) (hi : i < cs.length)
    (hj : j < cs[i].body.length) :
    (txwsFlat cs)[offsetAt cs i + j]? = some (cs[i].body[j]) := by
  have h := flatten_getElem_offset (cs.map CommitInput.body) i j (by simpa using hi)
    (by rw [List.getElem_map]; exact hj)
  rw [show txwsFlat cs = (cs.map CommitInput.body).flatten from rfl, offsetAt_eq_mapsum, h]
  simp

/-- Slicing the flat receipts array of a well-formed chain at block `i`'s
body slice returns exactly block `i`'s receipts. -/
theorem rcptsFlat_drop_take (cs : List CommitInput)
    (hwf : ∀ c ∈ cs, c.receipts.length = c.body.length) (i : Nat) (hi : i < cs.length) :
    ((rcptsFlat cs).drop (offsetAt cs i)).take cs[i].body.length = cs[i].receipts := by
  have hsum : (((cs.map CommitInput.receipts).map List.length).take i).sum = offsetAt cs i := by
    unfold offsetAt
    rw [List.map_map, ← List.map_take]
    congr 1
    apply List.map_congr_left
    intro c hc
    exact hwf c (List.take_subset i cs hc)
  have h := flatten_drop_take (cs.map CommitInput.receipts) i (by simpa using hi)
  rw [List.getElem_map] at h
  rw [show rcptsFlat cs = (cs.map CommitInput.receipts).flatten from rfl, ← hsum]
  rw [← hwf cs[i] (List.getElem_mem hi)]
  exact h

theorem rcptsFlat_length_wf (cs : List CommitInput)
    (hwf : ∀ c ∈ cs, c.receipts.length = c.body.length) :
    (rcptsFlat cs).length = (txwsFlat cs).length := by
  rw [show rcptsFlat cs = (cs.map CommitInput.receipts).flatten from rfl,
    show txwsFlat cs = (cs.map CommitInput.body).flatten from rfl]
  rw [List.length_flatten, List.length_flatten, List.map_map, List.map_map]
  apply congrArg
  apply List.map_congr_left
  intro c hc
  exact hwf c hc

/-- The body slice of committed block `i` as the provider returns it. -/
theorem chain_bbi_found (cs : List CommitInput) (hnd : (nums cs).Nodup) (i : Nat)
    (hi : i < cs.length) :
    (chainState cs).block_body_indices (.num cs[i].number)
      = .found ⟨offsetAt cs i, cs[i].body.length⟩ := by
  unfold InMemoryProvider.block_body_indices
  rw [show ((chainState cs).storage.resolveBlockNum (.num cs[i].number)).bind
      (fun num => (chainState cs).storage.block_body_indices num)
      = (chainState cs).storage.block_body_indices cs[i].number from rfl]
  rw [(chain_inv cs hnd).bbi_at i hi]

/-- Reading `transactions_by_block` on committed block `i` (through any selector
resolving to its block number) returns exactly the transaction list the
block was committed with. -/
theorem transactions_by_block_found (cs : List CommitInput) (hnd : (nums cs).Nodup) (i : Nat)
    (hi : i < cs.length) (id : BlockHashOrNumber)
    (hres : (chainState cs).storage.resolveBlockNum id = some cs[i].number) :
    (chainState cs).transactions_by_block id = .found cs[i].body := by
  have hInv := chain_inv cs hnd
  have hle : offsetAt cs i + cs[i].body.length ≤ (txwsFlat cs).length := by
    rw [← offsetAt_succ cs i hi]
    exact offsetAt_le_total cs (i + 1)
  have hlen : (((chainState cs).storage.transactions.enum.drop
      (offsetAt cs i)).take cs[i].body.length).length = cs[i].body.length := by
    rw [List.length_take, List.length_drop, List.enum_length, hInv.txs_eq, txsFlat_eq_map,
      List.length_map]
    omega
  have hslice : ∀ j (hjc : j < cs[i].body.length),
      (((chainState cs).storage.transactions.enum.drop
        (offsetAt cs i)).take cs[i].body.length)[j]?
        = some (offsetAt cs i + j, cs[i].body[j].transaction) := by
    intro j hjc
    rw [List.getElem?_take, if_pos hjc, List.getElem?_drop, List.getElem?_enum]
    rw [hInv.txs_eq, txsFlat_eq_map, List.getElem?_map, txwsFlat_getElem_at cs i j hi hjc]
    rfl
  have hcoll : collectTxs (chainState cs).storage
      (((chainState cs).storage.transactions.enum.drop
        (offsetAt cs i)).take cs[i].body.length) = some cs[i].body := by
    apply collectTxs_eq_some (chainState cs).storage _ cs[i].body hlen
    intro j hj hw
    have hj2 := hslice j hw
    have hjeq := List.getElem?_eq_getElem (l := ((chainState cs).storage.transactions.enum.drop
      (offsetAt cs i)).take cs[i].body.length) hj
    rw [hj2] at hjeq
    have hjeq2 := Option.some.inj hjeq
    constructor
    · rw [← hjeq2]
      rw [hInv.th_char (offsetAt cs i + j), txwsFlat_getElem_at cs i j hi hw]
      rfl
    · rw [← hjeq2]
  unfold InMemoryProvider.transactions_by_block
  rw [show ((chainState cs).storage.resolveBlockNum id).bind
      (fun num => (chainState cs).storage.block_body_indices num)
      = (chainState cs).storage.block_body_indices cs[i].number from by rw [hres]; rfl]
  rw [hInv.bbi_at i hi]
  show (match collectTxs (chainState cs).storage
      (((chainState cs).storage.transactions.enum.drop
        (offsetAt cs i)).take cs[i].body.length) with
    | none => Lookup.panic
    | some txs => Lookup.found txs) = Lookup.found cs[i].body
  rw [hcoll]

/-- Reading `receipts_by_block` on committed block `i` of a well-formed chain
returns exactly the receipts the block was committed with. -/
theorem receipts_by_block_found (cs : List CommitInput) (hnd : (nums cs).Nodup)
    (hwf : ∀ c ∈ cs, c.receipts.length = c.body.length) (i : Nat) (hi : i < cs.length) :
    (chainState cs).receipts_by_block (.num cs[i].number) = .found cs[i].receipts := by
  have hInv := chain_inv cs hnd
  have hle : offsetAt cs i + cs[i].body.length ≤ (txwsFlat cs).length := by
    rw [← offsetAt_succ cs i hi]
    exact offsetAt_le_total cs (i + 1)
  unfold InMemoryProvider.receipts_by_block
  rw [show ((chainState cs).storage.resolveBlockNum (.num cs[i].number)).bind
      (fun num => (chainState cs).storage.block_body_indices num)
      = (chainState cs).storage.block_body_indices cs[i].number from rfl]
  rw [hInv.bbi_at i hi]
  show (if offsetAt cs i + cs[i].body.length ≤ (chainState cs).storage.receipts.length then
      Lookup.found (((chainState cs).storage.receipts.drop (offsetAt cs i)).take
        cs[i].body.length)
    else Lookup.panic) = Lookup.found cs[i].receipts
  rw [if_pos (by rw [hInv.rcpts_eq, rcptsFlat_length_wf cs hwf]; exact hle)]
  rw [hInv.rcpts_eq, rcptsFlat_drop_take cs hwf i hi]

theorem resolve_num (db : CacheDb) (n : Nat) : db.resolveBlockNum (.num n) = some n := rfl

theorem resolve_hash (db : CacheDb) (h : Nat) :
    db.resolveBlockNum (.hash h) = db.block_numbers h := rfl

theorem header_none (p : InMemoryProvider) (id : BlockHashOrNumber)
    (h : (p.storage.resolveBlockNum id).bind (fun num => p.storage.block_headers num) = none) :
    p.header id = .notFound := by
  unfold InMemoryProvider.header
  rw [h]

theorem block_none (p : InMemoryProvider) (id : BlockHashOrNumber)
    (h : (p.storage.resolveBlockNum id).bind (fun num => p.storage.block_headers num) = none) :
    p.block id = .notFound := by
  unfold InMemoryProvider.block
  rw [h]

theorem block_status_none_resolve (p : InMemoryProvider) (id : BlockHashOrNumber)
    (h : p.storage.resolveBlockNum id = none) : p.block_status id = .notFound := by
  unfold InMemoryProvider.block_status
  rw [h]

theorem block_status_none_at (p : InMemoryProvider) (n : Nat)
    (h : p.storage.block_statusses n = none) : p.block_status (.num n) = .notFound := by
  unfold InMemoryProvider.block_status
  show (match p.storage.block_statusses n with
    | none => Lookup.notFound
    | some st => Lookup.found st) = Lookup.notFound
  rw [h]

theorem bbi_none (p : InMemoryProvider) (id : BlockHashOrNumber)
    (h : (p.storage.resolveBlockNum id).bind
      (fun num => p.storage.block_body_indices num) = none) :
    p.block_body_indices id = .notFound := by
  unfold InMemoryProvider.block_body_indices
  rw [h]

theorem tbb_none (p : InMemoryProvider) (id : BlockHashOrNumber)
    (h : (p.storage.resolveBlockNum id).bind
      (fun num => p.storage.block_body_indices num) = none) :
    p.transactions_by_block id = .notFound := by
  unfold InMemoryProvider.transactions_by_block
  rw [h]

theorem rbb_none (p : InMemoryProvider) (id : BlockHashOrNumber)
    (h : (p.storage.resolveBlockNum id).bind
      (fun num => p.storage.block_body_indices num) = none) :
    p.receipts_by_block id = .notFound := by
  unfold InMemoryProvider.receipts_by_block
  rw [h]

theorem su_none (p : InMemoryProvider) (id : BlockHashOrNumber)
    (h : (p.storage.resolveBlockNum id).bind (fun num => p.storage.state_update num) = none) :
    p.state_update id = .notFound := by
  unfold InMemoryProvider.state_update
  rw [h]

theorem tbh_none (p : InMemoryProvider) (th : TxHash)
    (h : p.storage.transaction_numbers th = none) : p.transaction_by_hash th = .notFound := by
  unfold InMemoryProvider.transaction_by_hash
  rw [h]

theorem historical_none_resolve (p : InMemoryProvider) (id : BlockHashOrNumber)
    (h : p.storage.resolveBlockNum id = none) : p.historical id = .notFound := by
  unfold InMemoryProvider.historical
  rw [h]

theorem historical_none_at (p : InMemoryProvider) (n : Nat)
    (h : p.historical_states n = none) : p.historical (.num n) = .notFound := by
  unfold InMemoryProvider.historical
  show (match p.historical_states n with
    | none => Lookup.notFound
    | some snap => Lookup.found snap) = Lookup.notFound
  rw [h]

theorem state_root_none (p : InMemoryProvider) (id : BlockHashOrNumber)
    (h : (p.block_number_by_id id).bind
      (fun num => (p.storage.block_headers num).map Header.state_root) = none) :
    p.state_root id = .notFound := by
  unfold InMemoryProvider.state_root
  rw [h]

/-- Concrete commit used by witnesses: block 0 (hash 100) with two
transactions (hashes 11, 12), receipts 21, 22, and a diff writing
storage slot (addr 1, key 1) to 5, nonce of addr 1 to 1, class hash of
addr 1 to 4 — the first commit of the spec's concrete scenario. -/
def cA : CommitInput :=
  { bhash := 100, header := ⟨0, 0, 7, 0⟩, status := 1,
    body := [⟨11, 1⟩, ⟨12, 2⟩], states := ⟨[(1, 1, 5)], [(1, 1)], [(1, 4)]⟩,
    receipts := [21, 22] }

/-- Concrete commit used by witnesses: block 1 (hash 101) with one
transaction (hash 13), receipt 23, and a diff overwriting storage slot
(addr 1, key 1) to 9 — the second commit of the spec's scenario. -/
def cB : CommitInput :=
  { bhash := 101, header := ⟨1, 100, 8, 1⟩, status := 1,
    body := [⟨13, 3⟩], states := ⟨[(1, 1, 9)], [], []⟩, receipts := [23] }

/-- Concrete commit reusing block number 0 with a different header and
hash — a duplicate registration attempt. -/
def cDup : CommitInput :=
  { bhash := 102, header := ⟨0, 0, 9, 5⟩, status := 1, body := [],
    states := ⟨[], [], []⟩, receipts := [] }

/-- Concrete commit whose receipts list is shorter than its transaction
list: block 0 with one transaction and zero receipts. -/
def cBad : CommitInput :=
  { bhash := 100, header := ⟨0, 0, 7, 0⟩, status := 1, body := [⟨11, 1⟩],
    states := ⟨[], [], []⟩, receipts := [] }

/-- A corrupted index state: transaction hash 7 is registered in the
hash→number map with number 0, but the flat transaction array, the
number→hash map, and the transaction→block map have no entry 0. -/
def corruptProvider : InMemoryProvider :=
  { storage := { CacheDb.new with transaction_numbers := Map.empty.insert 7 0 }
    state := StateDb.new
    historical_states := Map.empty }

/-- C1: for every duplicate-free sequence of committed blocks and every
already-committed index `i`, the historical state view registered for
block `i` — read back after all later blocks have been committed and
their diffs applied in place to the current state — is exactly the state
obtained by folding the state diffs of commits `0..i` (and only those)
over the fresh state: every storage, nonce, and class-hash query answers
from that prefix fold, and none of the later diffs is visible through
the snapshot. -/
theorem C1_snapshot_isolation (cs : List CommitInput) (hnd : (nums cs).Nodup)
    (i : Nat) (hi : i < cs.length) :
    commitChain initProvider cs = some (chainState cs)
    ∧ (chainState cs).historical (.num cs[i].number) = .found (snapAt cs i) := by
  refine ⟨commitChain_eq_chainState cs hnd, ?_⟩
  unfold InMemoryProvider.historical
  show (match (chainState cs).historical_states cs[i].number with
    | none => Lookup.notFound
    | some snap => Lookup.found snap) = Lookup.found (snapAt cs i)
  rw [(chain_inv cs hnd).hist_at i hi]

theorem C1_snapshot_isolation_witness :
    ((nums [cA, cB]).Nodup ∧ 0 < [cA, cB].length)
    ∧ commitChain initProvider [cA, cB] = some (chainState [cA, cB])
    ∧ (chainState [cA, cB]).historical (.num cA.number) = .found (snapAt [cA, cB] 0) :=
  ⟨⟨by decide, by decide⟩, C1_snapshot_isolation [cA, cB] (by decide) 0 (by decide)⟩

/-- C2 counterexample: committing block number 0 twice (first `cA`, then
`cDup` with a different header) makes
`insert_block_with_states_and_receipts` silently overwrite the stored
block header for number 0 before the (fatal) historical-registration
rejection: after the duplicate commit the provider state carried by the
panic holds `cDup`'s header where `cA`'s header was stored, refuting
"never silently overwrites the existing block record". -/
theorem C2_counterexample :
    (chainState [cA]).storage.block_headers 0 = some cA.header
    ∧ (match insert_block_with_states_and_receipts (chainState [cA]) cDup with
      | .panic q => some (q.storage.block_headers 0)
      | .ok _ => none) = some (some cDup.header)
    ∧ cDup.header ≠ cA.header := by
  refine ⟨by decide, by decide, by decide⟩

/-- C2 (amended): committing a block whose number is already registered
is rejected as fatal when the historical snapshot is registered (the
previously registered snapshot itself is never replaced), but only after
the block record, indices, and flat arrays have already been silently
overwritten / extended: the panic-state holds the new header and new
body indices for that number, and the extended transaction array. -/
theorem C2_duplicate_commit (p : InMemoryProvider) (c : CommitInput) (snap : StateDb)
    (hdup : p.historical_states c.number = some snap) :
    insert_block_with_states_and_receipts p c = .panic (commitMutations p c)
    ∧ (commitMutations p c).historical_states c.number = some snap
    ∧ (commitMutations p c).storage.block_headers c.number = some c.header
    ∧ (commitMutations p c).storage.block_body_indices c.number
        = some ⟨p.storage.transactions.length, c.body.length⟩
    ∧ (commitMutations p c).storage.transactions
        = p.storage.transactions ++ c.body.map TxWithHash.transaction := by
  refine ⟨?_, ?_, ?_, ?_, rfl⟩
  · unfold insert_block_with_states_and_receipts
    rw [hdup]
    rfl
  · rw [commitMutations_historical]
    exact hdup
  · rw [commitMutations_storage, commitStorage_block_headers, Map.insert_self]
  · rw [commitMutations_storage, commitStorage_block_body_indices, Map.insert_self]

theorem C2_duplicate_commit_witness :
    (chainState [cA]).historical_states cDup.number = some (snapAt [cA] 0)
    ∧ (insert_block_with_states_and_receipts (chainState [cA]) cDup
        = .panic (commitMutations (chainState [cA]) cDup)
      ∧ (commitMutations (chainState [cA]) cDup).historical_states cDup.number
          = some (snapAt [cA] 0)
      ∧ (commitMutations (chainState [cA]) cDup).storage.block_headers cDup.number
          = some cDup.header
      ∧ (commitMutations (chainState [cA]) cDup).storage.block_body_indices cDup.number
          = some ⟨(chainState [cA]).storage.transactions.length, cDup.body.length⟩
      ∧ (commitMutations (chainState [cA]) cDup).storage.transactions
          = (chainState [cA]).storage.transactions
            ++ cDup.body.map TxWithHash.transaction) :=
  have hdup : (chainState [cA]).historical_states cDup.number = some (snapAt [cA] 0) :=
    (chain_inv [cA] (by decide)).hist_at 0 (by decide)
  ⟨hdup, C2_duplicate_commit (chainState [cA]) cDup (snapAt [cA] 0) hdup⟩

/-- C3: for consecutively committed blocks `i` and `i+1` of a
duplicate-free chain, the recorded body slices satisfy
`tx_offset(i+1) = tx_offset(i) + tx_count(i)`, and the `tx_offset` of
block `i` equals the total number of transactions committed before it. -/
theorem C3_monotonic_offsets (cs : List CommitInput) (hnd : (nums cs).Nodup)
    (i : Nat) (hi : i + 1 < cs.length) :
    (chainState cs).block_body_indices (.num cs[i].number)
      = .found ⟨offsetAt cs i, cs[i].body.length⟩
    ∧ (chainState cs).block_body_indices (.num cs[i + 1].number)
      = .found ⟨offsetAt cs i + cs[i].body.length, cs[i + 1].body.length⟩
    ∧ offsetAt cs i = (txwsFlat (cs.take i)).length := by
  refine ⟨chain_bbi_found cs hnd i (by omega), ?_, ?_⟩
  · have h2 := chain_bbi_found cs hnd (i + 1) hi
    rw [offsetAt_succ cs i (by omega)] at h2
    exact h2
  · rw [txwsFlat_length]
    unfold offsetAt
    rw [List.take_length]

theorem C3_monotonic_offsets_witness :
    ((nums [cA, cB]).Nodup ∧ 0 + 1 < [cA, cB].length)
    ∧ (chainState [cA, cB]).block_body_indices (.num cA.number)
        = .found ⟨offsetAt [cA, cB] 0, cA.body.length⟩
    ∧ (chainState [cA, cB]).block_body_indices (.num cB.number)
        = .found ⟨offsetAt [cA, cB] 0 + cA.body.length, cB.body.length⟩
    ∧ offsetAt [cA, cB] 0 = (txwsFlat ([cA, cB].take 0)).length :=
  ⟨⟨by decide, by decide⟩, C3_monotonic_offsets [cA, cB] (by decide) 0 (by decide)⟩

/-- C4 counterexample: committing `cBad` (one transaction, zero receipts)
succeeds, after which the global flat transaction and receipt arrays have
different lengths and `receipts_by_block` on the committed block panics —
refuting both "the global flat receipts and transactions arrays have
equal length after every successful commit" and "receipts_by_block(n)
and transactions_by_block(n) return lists of equal length". -/
theorem C4_counterexample :
    (commitChain initProvider [cBad]).isSome = true
    ∧ (chainState [cBad]).storage.transactions.length = 1
    ∧ (chainState [cBad]).storage.receipts.length = 0
    ∧ (chainState [cBad]).transactions_by_block (.num 0) = .found [⟨11, 1⟩]
    ∧ (chainState [cBad]).receipts_by_block (.num 0) = .panic := by
  refine ⟨by decide, by decide, by decide, by decide, by decide⟩

/-- C4 (amended): provided every commit supplies exactly as many receipts
as transactions, then for every committed block `i` the transaction and
receipt lists returned for the block are exactly the committed ones —
equal in length to the recorded `tx_count` and positionally aligned —
and the global flat receipts and transactions arrays have equal length. -/
theorem C4_index_alignment (cs : List CommitInput) (hnd : (nums cs).Nodup)
    (hwf : ∀ c ∈ cs, c.receipts.length = c.body.length) (i : Nat) (hi : i < cs.length) :
    (chainState cs).transactions_by_block (.num cs[i].number) = .found cs[i].body
    ∧ (chainState cs).receipts_by_block (.num cs[i].number) = .found cs[i].receipts
    ∧ cs[i].receipts.length = cs[i].body.length
    ∧ (chainState cs).block_body_indices (.num cs[i].number)
        = .found ⟨offsetAt cs i, cs[i].body.length⟩
    ∧ (chainState cs).storage.receipts.length = (chainState cs).storage.transactions.length := by
  refine ⟨transactions_by_block_found cs hnd i hi (.num cs[i].number) rfl,
    receipts_by_block_found cs hnd hwf i hi, hwf cs[i] (List.getElem_mem hi),
    chain_bbi_found cs hnd i hi, ?_⟩
  rw [(chain_inv cs hnd).rcpts_eq, (chain_inv cs hnd).txs_eq, txsFlat_eq_map, List.length_map,
    rcptsFlat_length_wf cs hwf]

theorem C4_index_alignment_witness :
    ((nums [cA, cB]).Nodup ∧ (∀ c ∈ [cA, cB], c.receipts.length = c.body.length)
      ∧ 1 < [cA, cB].length)
    ∧ (chainState [cA, cB]).transactions_by_block (.num cB.number) = .found cB.body
    ∧ (chainState [cA, cB]).receipts_by_block (.num cB.number) = .found cB.receipts
    ∧ cB.receipts.length = cB.body.length
    ∧ (chainState [cA, cB]).block_body_indices (.num cB.number)
        = .found ⟨offsetAt [cA, cB] 1, cB.body.length⟩
    ∧ (chainState [cA, cB]).storage.receipts.length
        = (chainState [cA, cB]).storage.transactions.length :=
  ⟨⟨by decide, by decide, by decide⟩,
    C4_index_alignment [cA, cB] (by decide) (by decide) 1 (by decide)⟩

/-- C5 counterexample: in a state where transaction hash 7 is present in
the hash→number map but the flat transaction array has no entry for its
number, `transaction_by_hash` returns `Ok(None)` — the cross-index
inconsistency is silently downgraded to "not found", not a panic —
while `transaction_block_num_and_hash` panics on the very same state. -/
theorem C5_counterexample :
    corruptProvider.storage.transaction_numbers 7 = some 0
    ∧ corruptProvider.storage.transactions.get? 0 = none
    ∧ corruptProvider.transaction_by_hash 7 = .notFound
    ∧ corruptProvider.transaction_block_num_and_hash 7 = .panic := by
  refine ⟨by decide, by decide, by decide, by decide⟩

/-- C5 (amended): cross-index inconsistencies behind a transaction hash
present in the number map are fatal (panic) in
`transaction_block_num_and_hash` — a missing transaction→block entry or
a missing block hash aborts — but in `transaction_by_hash` the same
class of inconsistency (missing flat-array entry or missing number→hash
entry) is silently reported as "not found". -/
theorem C5_inconsistency_handling (p : InMemoryProvider) (h : TxHash) (num : Nat)
    (htn : p.storage.transaction_numbers h = some num) :
    (p.storage.transaction_block num = none → p.transaction_block_num_and_hash h = .panic)
    ∧ (∀ bn, p.storage.transaction_block num = some bn → p.storage.block_hashes bn = none →
        p.transaction_block_num_and_hash h = .panic)
    ∧ (p.storage.transactions.get? num = none → p.transaction_by_hash h = .notFound)
    ∧ (∀ tx, p.storage.transactions.get? num = some tx →
        p.storage.transaction_hashes num = none → p.transaction_by_hash h = .notFound) := by
  refine ⟨?_, ?_, ?_, ?_⟩
  · intro hb
    unfold InMemoryProvider.transaction_block_num_and_hash
    rw [htn]
    show (match p.storage.transaction_block num with
      | none => Lookup.panic
      | some bn => match p.storage.block_hashes bn with
        | none => Lookup.panic
        | some bh => Lookup.found (bn, bh)) = Lookup.panic
    rw [hb]
  · intro bn hb hbh
    unfold InMemoryProvider.transaction_block_num_and_hash
    rw [htn]
    show (match p.storage.transaction_block num with
      | none => Lookup.panic
      | some bn => match p.storage.block_hashes bn with
        | none => Lookup.panic
        | some bh => Lookup.found (bn, bh)) = Lookup.panic
    rw [hb]
    show (match p.storage.block_hashes bn with
      | none => Lookup.panic
      | some bh => Lookup.found (bn, bh)) = Lookup.panic
    rw [hbh]
  · intro hx
    unfold InMemoryProvider.transaction_by_hash
    rw [htn]
    show (match p.storage.transactions.get? num with
      | none => Lookup.notFound
      | some tx => match p.storage.transaction_hashes num with
        | none => Lookup.notFound
        | some h2 => Lookup.found (TxWithHash.mk h2 tx)) = Lookup.notFound
    rw [hx]
  · intro tx hx hth
    unfold InMemoryProvider.transaction_by_hash
    rw [htn]
    show (match p.storage.transactions.get? num with
      | none => Lookup.notFound
      | some tx => match p.storage.transaction_hashes num with
        | none => Lookup.notFound
        | some h2 => Lookup.found (TxWithHash.mk h2 tx)) = Lookup.notFound
    rw [hx]
    show (match p.storage.transaction_hashes num with
      | none => Lookup.notFound
      | some h2 => Lookup.found (TxWithHash.mk h2 tx)) = Lookup.notFound
    rw [hth]

theorem C5_inconsistency_handling_witness :
    corruptProvider.storage.transaction_numbers 7 = some 0
    ∧ ((corruptProvider.storage.transaction_block 0 = none →
          corruptProvider.transaction_block_num_and_hash 7 = .panic)
      ∧ (∀ bn, corruptProvider.storage.transaction_block 0 = some bn →
          corruptProvider.storage.block_hashes bn = none →
          corruptProvider.transaction_block_num_and_hash 7 = .panic)
      ∧ (corruptProvider.storage.transactions.get? 0 = none →
          corruptProvider.transaction_by_hash 7 = .notFound)
      ∧ (∀ tx, corruptProvider.storage.transactions.get? 0 = some tx →
          corruptProvider.storage.transaction_hashes 0 = none →
          corruptProvider.transaction_by_hash 7 = .notFound)) :=
  ⟨by decide, C5_inconsistency_handling corruptProvider 7 0 (by decide)⟩

theorem block_found (p : InMemoryProvider) (id : BlockHashOrNumber) (hdr : Header)
    (body : List TxWithHash)
    (hh : (p.storage.resolveBlockNum id).bind (fun num => p.storage.block_headers num)
      = some hdr)
    (hb : p.transactions_by_block id = .found body) : p.block id = .found ⟨hdr, body⟩ := by
  unfold InMemoryProvider.block
  rw [hh]
  show (match p.transactions_by_block id with
    | Lookup.panic => Lookup.panic
    | Lookup.notFound => Lookup.found (Block.mk hdr [])
    | Lookup.found b => Lookup.found (Block.mk hdr b)) = Lookup.found (Block.mk hdr body)
  rw [hb]

/-- C6: on the provider state after any duplicate-free commit sequence,
every read operation queried with a block number, block hash, or
transaction hash that was never committed returns `Ok(None)`
(`notFound`) — never a panic, and (by construction of the reads, which
never build a `Result::Err`) never an error. -/
theorem C6_absence_correctness (cs : List CommitInput) (hnd : (nums cs).Nodup)
    (n h th : Nat) (hn : n ∉ nums cs) (hh : h ∉ bhashes cs)
    (hth : th ∉ (txwsFlat cs).map TxWithHash.hash) :
    (chainState cs).block (.num n) = .notFound
    ∧ (chainState cs).block (.hash h) = .notFound
    ∧ (chainState cs).header (.num n) = .notFound
    ∧ (chainState cs).header (.hash h) = .notFound
    ∧ (chainState cs).block_status (.num n) = .notFound
    ∧ (chainState cs).block_status (.hash h) = .notFound
    ∧ (chainState cs).block_body_indices (.num n) = .notFound
    ∧ (chainState cs).block_body_indices (.hash h) = .notFound
    ∧ (chainState cs).transaction_by_hash th = .notFound
    ∧ (chainState cs).transactions_by_block (.num n) = .notFound
    ∧ (chainState cs).transactions_by_block (.hash h) = .notFound
    ∧ (chainState cs).receipts_by_block (.num n) = .notFound
    ∧ (chainState cs).receipts_by_block (.hash h) = .notFound
    ∧ (chainState cs).state_update (.num n) = .notFound
    ∧ (chainState cs).state_update (.hash h) = .notFound
    ∧ (chainState cs).historical (.num n) = .notFound
    ∧ (chainState cs).historical (.hash h) = .notFound
    ∧ (chainState cs).state_root (.num n) = .notFound
    ∧ (chainState cs).state_root (.hash h) = .notFound := by
  have hInv := chain_inv cs hnd
  have hbn : (chainState cs).storage.block_numbers h = none := hInv.bn_absent h hh
  have hhd : (chainState cs).storage.block_headers n = none := hInv.hdr_absent n hn
  have hst : (chainState cs).storage.block_statusses n = none := hInv.st_absent n hn
  have hbbi : (chainState cs).storage.block_body_indices n = none := hInv.bbi_absent n hn
  have hsu : (chainState cs).storage.state_update n = none := hInv.su_absent n hn
  have hhist : (chainState cs).historical_states n = none := hInv.hist_absent n hn
  have htn : (chainState cs).storage.transaction_numbers th = none := hInv.tn_absent th hth
  have hresH : (chainState cs).storage.resolveBlockNum (.hash h) = none := by
    rw [resolve_hash]
    exact hbn
  have hbindN_hdr : ((chainState cs).storage.resolveBlockNum (.num n)).bind
      (fun num => (chainState cs).storage.block_headers num) = none := by
    show (chainState cs).storage.block_headers n = none
    exact hhd
  have hbindH_hdr : ((chainState cs).storage.resolveBlockNum (.hash h)).bind
      (fun num => (chainState cs).storage.block_headers num) = none := by
    rw [hresH]
    rfl
  have hbindN_bbi : ((chainState cs).storage.resolveBlockNum (.num n)).bind
      (fun num => (chainState cs).storage.block_body_indices num) = none := by
    show (chainState cs).storage.block_body_indices n = none
    exact hbbi
  have hbindH_bbi : ((chainState cs).storage.resolveBlockNum (.hash h)).bind
      (fun num => (chainState cs).storage.block_body_indices num) = none := by
    rw [hresH]
    rfl
  have hbindN_su : ((chainState cs).storage.resolveBlockNum (.num n)).bind
      (fun num => (chainState cs).storage.state_update num) = none := by
    show (chainState cs).storage.state_update n = none
    exact hsu
  have hbindH_su : ((chainState cs).storage.resolveBlockNum (.hash h)).bind
      (fun num => (chainState cs).storage.state_update num) = none := by
    rw [hresH]
    rfl
  have hbindN_root : ((chainState cs).block_number_by_id (.num n)).bind
      (fun num => ((chainState cs).storage.block_headers num).map Header.state_root) = none := by
    show ((chainState cs).storage.block_headers n).map Header.state_root = none
    rw [hhd]
    rfl
  have hbindH_root : ((chainState cs).block_number_by_id (.hash h)).bind
      (fun num => ((chainState cs).storage.block_headers num).map Header.state_root) = none := by
    show ((chainState cs).storage.block_numbers h).bind
      (fun num => ((chainState cs).storage.block_headers num).map Header.state_root) = none
    rw [hbn]
    rfl
  exact ⟨block_none _ _ hbindN_hdr, block_none _ _ hbindH_hdr,
    header_none _ _ hbindN_hdr, header_none _ _ hbindH_hdr,
    block_status_none_at _ n hst, block_status_none_resolve _ _ hresH,
    bbi_none _ _ hbindN_bbi, bbi_none _ _ hbindH_bbi,
    tbh_none _ th htn,
    tbb_none _ _ hbindN_bbi, tbb_none _ _ hbindH_bbi,
    rbb_none _ _ hbindN_bbi, rbb_none _ _ hbindH_bbi,
    su_none _ _ hbindN_su, su_none _ _ hbindH_su,
    historical_none_at _ n hhist, historical_none_resolve _ _ hresH,
    state_root_none _ _ hbindN_root, state_root_none _ _ hbindH_root⟩

theorem C6_absence_correctness_witness :
    ((nums [cA, cB]).Nodup ∧ 99 ∉ nums [cA, cB] ∧ 999 ∉ bhashes [cA, cB]
      ∧ 555 ∉ (txwsFlat [cA, cB]).map TxWithHash.hash)
    ∧ (chainState [cA, cB]).block (.num 99) = .notFound
    ∧ (chainState [cA, cB]).block (.hash 999) = .notFound
    ∧ (chainState [cA, cB]).header (.num 99) = .notFound
    ∧ (chainState [cA, cB]).header (.hash 999) = .notFound
    ∧ (chainState [cA, cB]).block_status (.num 99) = .notFound
    ∧ (chainState [cA, cB]).block_status (.hash 999) = .notFound
    ∧ (chainState [cA, cB]).block_body_indices (.num 99) = .notFound
    ∧ (chainState [cA, cB]).block_body_indices (.hash 999) = .notFound
    ∧ (chainState [cA, cB]).transaction_by_hash 555 = .notFound
    ∧ (chainState [cA, cB]).transactions_by_block (.num 99) = .notFound
    ∧ (chainState [cA, cB]).transactions_by_block (.hash 999) = .notFound
    ∧ (chainState [cA, cB]).receipts_by_block (.num 99) = .notFound
    ∧ (chainState [cA, cB]).receipts_by_block (.hash 999) = .notFound
    ∧ (chainState [cA, cB]).state_update (.num 99) = .notFound
    ∧ (chainState [cA, cB]).state_update (.hash 999) = .notFound
    ∧ (chainState [cA, cB]).historical (.num 99) = .notFound
    ∧ (chainState [cA, cB]).historical (.hash 999) = .notFound
    ∧ (chainState [cA, cB]).state_root (.num 99) = .notFound
    ∧ (chainState [cA, cB]).state_root (.hash 999) = .notFound :=
  ⟨⟨by decide, by decide, by decide, by decide⟩,
    C6_absence_correctness [cA, cB] (by decide) 99 999 555 (by decide) (by decide) (by decide)⟩

/-- C7: on a committed block of a duplicate-free chain,
`transaction_by_block_and_idx` returns "not found" for every local index
at or past the recorded `tx_count`, and for every local index below
`tx_count` it returns the transaction stored at global position
`tx_offset + idx` together with its hash (which is exactly the
transaction committed at that local position). -/
theorem C7_transaction_by_block_and_idx (cs : List CommitInput) (hnd : (nums cs).Nodup)
    (i : Nat) (hi : i < cs.length) :
    (∀ idx, cs[i].body.length ≤ idx →
      (chainState cs).transaction_by_block_and_idx (.num cs[i].number) idx = .notFound)
    ∧ ∀ idx (hidx : idx < cs[i].body.length),
      (chainState cs).transaction_by_block_and_idx (.num cs[i].number) idx
        = .found cs[i].body[idx]
      ∧ (txwsFlat cs)[offsetAt cs i + idx]? = some cs[i].body[idx] := by
  have hInv := chain_inv cs hnd
  constructor
  · intro idx hle2
    unfold InMemoryProvider.transaction_by_block_and_idx
    rw [show ((chainState cs).storage.resolveBlockNum (.num cs[i].number)).bind
        (fun num => (chainState cs).storage.block_body_indices num)
        = (chainState cs).storage.block_body_indices cs[i].number from rfl]
    rw [hInv.bbi_at i hi]
    show (if cs[i].body.length ≤ idx then Lookup.notFound
      else match (chainState cs).storage.transactions.get? (offsetAt cs i + idx) with
        | none => Lookup.notFound
        | some tx =>
          match (chainState cs).storage.transaction_hashes (offsetAt cs i + idx) with
          | none => Lookup.notFound
          | some h2 => Lookup.found (TxWithHash.mk h2 tx)) = Lookup.notFound
    rw [if_pos hle2]
  · intro idx hidx
    have hget : (chainState cs).storage.transactions.get? (offsetAt cs i + idx)
        = some cs[i].body[idx].transaction := by
      rw [List.get?_eq_getElem?, hInv.txs_eq, txsFlat_eq_map, List.getElem?_map,
        txwsFlat_getElem_at cs i idx hi hidx]
      rfl
    have hth2 : (chainState cs).storage.transaction_hashes (offsetAt cs i + idx)
        = some cs[i].body[idx].hash := by
      rw [hInv.th_char, txwsFlat_getElem_at cs i idx hi hidx]
      rfl
    refine ⟨?_, txwsFlat_getElem_at cs i idx hi hidx⟩
    unfold InMemoryProvider.transaction_by_block_and_idx
    rw [show ((chainState cs).storage.resolveBlockNum (.num cs[i].number)).bind
        (fun num => (chainState cs).storage.block_body_indices num)
        = (chainState cs).storage.block_body_indices cs[i].number from rfl]
    rw [hInv.bbi_at i hi]
    show (if cs[i].body.length ≤ idx then Lookup.notFound
      else match (chainState cs).storage.transactions.get? (offsetAt cs i + idx) with
        | none => Lookup.notFound
        | some tx =>
          match (chainState cs).storage.transaction_hashes (offsetAt cs i + idx) with
          | none => Lookup.notFound
          | some h2 => Lookup.found (TxWithHash.mk h2 tx))
      = Lookup.found cs[i].body[idx]
    rw [if_neg (by omega), hget]
    show (match (chainState cs).storage.transaction_hashes (offsetAt cs i + idx) with
      | none => Lookup.notFound
      | some h2 => Lookup.found (TxWithHash.mk h2 cs[i].body[idx].transaction))
      = Lookup.found cs[i].body[idx]
    rw [hth2]

theorem C7_transaction_by_block_and_idx_witness :
    ((nums [cA, cB]).Nodup ∧ 0 < [cA, cB].length)
    ∧ ((∀ idx, cA.body.length ≤ idx →
        (chainState [cA, cB]).transaction_by_block_and_idx (.num cA.number) idx = .notFound)
      ∧ ∀ idx (hidx : idx < cA.body.length),
        (chainState [cA, cB]).transaction_by_block_and_idx (.num cA.number) idx
          = .found (cA.body[idx])
        ∧ (txwsFlat [cA, cB])[offsetAt [cA, cB] 0 + idx]? = some (cA.body[idx])) :=
  ⟨⟨by decide, by decide⟩, C7_transaction_by_block_and_idx [cA, cB] (by decide) 0 (by decide)⟩

/-- C8: for every block of a committed chain with duplicate-free numbers
and hashes, querying `block` by the block's number and by its hash
returns identical content: the committed header and the committed
transaction body. -/
theorem C8_round_trip (cs : List CommitInput) (hnd : (nums cs).Nodup)
    (hbh : (bhashes cs).Nodup) (i : Nat) (hi : i < cs.length) :
    (chainState cs).block (.num cs[i].number) = .found ⟨cs[i].header, cs[i].body⟩
    ∧ (chainState cs).block (.hash cs[i].bhash) = .found ⟨cs[i].header, cs[i].body⟩ := by
  have hInv := chain_inv cs hnd
  have hcond : ∀ j (hj : j < cs.length), i < j → cs[j].bhash ≠ cs[i].bhash := by
    intro j hj hij heq
    have hib : i < (bhashes cs).length := by simpa [bhashes] using Nat.lt_trans hij hj
    have hjb : j < (bhashes cs).length := by simpa [bhashes] using hj
    have hpw := (List.pairwise_iff_getElem.1 hbh) i j hib hjb hij
    have h1 : (bhashes cs)[i] = cs[i].bhash := List.getElem_map CommitInput.bhash
    have h2 : (bhashes cs)[j] = cs[j].bhash := List.getElem_map CommitInput.bhash
    rw [h1, h2] at hpw
    exact hpw heq.symm
  have hbn_at : (chainState cs).storage.block_numbers cs[i].bhash = some cs[i].number :=
    hInv.bn_at i hi hcond
  have hhdrN : ((chainState cs).storage.resolveBlockNum (.num cs[i].number)).bind
      (fun num => (chainState cs).storage.block_headers num) = some cs[i].header := by
    show (chainState cs).storage.block_headers cs[i].number = some cs[i].header
    exact hInv.hdr_at i hi
  have hhdrH : ((chainState cs).storage.resolveBlockNum (.hash cs[i].bhash)).bind
      (fun num => (chainState cs).storage.block_headers num) = some cs[i].header := by
    show ((chainState cs).storage.block_numbers cs[i].bhash).bind
      (fun num => (chainState cs).storage.block_headers num) = some cs[i].header
    rw [hbn_at]
    show (chainState cs).storage.block_headers cs[i].number = some cs[i].header
    exact hInv.hdr_at i hi
  exact ⟨block_found _ _ _ _ hhdrN (transactions_by_block_found cs hnd i hi _ rfl),
    block_found _ _ _ _ hhdrH (transactions_by_block_found cs hnd i hi _ (by
      rw [resolve_hash]
      exact hbn_at))⟩

theorem C8_round_trip_witness :
    ((nums [cA, cB]).Nodup ∧ (bhashes [cA, cB]).Nodup ∧ 0 < [cA, cB].length)
    ∧ (chainState [cA, cB]).block (.num cA.number) = .found ⟨cA.header, cA.body⟩
    ∧ (chainState [cA, cB]).block (.hash cA.bhash) = .found ⟨cA.header, cA.body⟩ :=
  ⟨⟨by decide, by decide, by decide⟩, C8_round_trip [cA, cB] (by decide) (by decide) 0 (by decide)⟩

/-- C10: `insert_block_with_states_and_receipts` performs no length check
between a block's transactions and receipts — a duplicate-free chain
containing such a commit still succeeds (`Ok`) — and whenever the
recorded body slice of a committed block extends past the end of the
global receipts array, `receipts_by_block` on that block panics on the
unchecked slice instead of returning "not found". -/
theorem C10_mismatched_receipts_panic (cs : List CommitInput) (hnd : (nums cs).Nodup)
    (i : Nat) (hi : i < cs.length)
    (hshort : (rcptsFlat cs).length < offsetAt cs i + cs[i].body.length) :
    commitChain initProvider cs = some (chainState cs)
    ∧ (chainState cs).receipts_by_block (.num cs[i].number) = .panic := by
  have hInv := chain_inv cs hnd
  refine ⟨commitChain_eq_chainState cs hnd, ?_⟩
  unfold InMemoryProvider.receipts_by_block
  rw [show ((chainState cs).storage.resolveBlockNum (.num cs[i].number)).bind
      (fun num => (chainState cs).storage.block_body_indices num)
      = (chainState cs).storage.block_body_indices cs[i].number from rfl]
  rw [hInv.bbi_at i hi]
  show (if offsetAt cs i + cs[i].body.length ≤ (chainState cs).storage.receipts.length then
      Lookup.found (((chainState cs).storage.receipts.drop (offsetAt cs i)).take
        cs[i].body.length)
    else Lookup.panic) = Lookup.panic
  rw [if_neg (by rw [hInv.rcpts_eq]; omega)]

theorem C10_mismatched_receipts_panic_witness :
    ((nums [cBad]).Nodup ∧ 0 < [cBad].length
      ∧ (rcptsFlat [cBad]).length < offsetAt [cBad] 0 + cBad.body.length
      ∧ cBad.receipts.length ≠ cBad.body.length)
    ∧ commitChain initProvider [cBad] = some (chainState [cBad])
    ∧ (chainState [cBad]).receipts_by_block (.num cBad.number) = .panic :=
  ⟨⟨by decide, by decide, by decide, by decide⟩,
    C10_mismatched_receipts_panic [cBad] (by decide) 0 (by decide) (by decide)⟩

end KatanaInMemory
